import Mathlib

/-!
Verification development for the redirect lifecycle manager and proxy-port
allocator in `pkg/proxy/proxy.go` (Cilium L7 proxy control plane).

The Go code is shallowly embedded as follows.

* The `Proxy` struct becomes the `Proxy` structure.  Its two maps
  `allocatedPorts : map[uint16]*Redirect` and `redirects : map[string]*Redirect`
  hold pointers to shared `Redirect` objects, so the embedding uses an explicit
  heap: both maps store references (`Nat`), and `heap` maps each live reference
  to the current value of the pointed-to `Redirect` record.  `nextRef` is the
  allocator for fresh references.
* `uint16` arithmetic is `Nat` with an explicit `% 65536` exactly where the Go
  code computes in 16 bits (the permutation size `rangeMax - rangeMin + 1` and
  the rebased candidate port `uint16(r) + rangeMin`).
* `math/rand.Perm` is modelled by passing the permutation explicitly: callers
  of `allocatePort` supply a list which theorems constrain to be a permutation
  of `List.range (allocSize ..)`, precisely the set `Perm` draws from.
* External capabilities (the Envoy/Kafka backend factories, the backend's
  `UpdateRules`, `Close`, and `proxymap` cleanup) are out of scope per the
  spec; their outcomes enter as oracle parameters (`Except` values indexed by
  invocation count) and emitted actions.
* `time.Now()` becomes a `now : Nat` parameter (nanoseconds); the deferred
  port-release goroutine of `RemoveRedirect` becomes an explicit
  `ScheduledRelease` value carrying its firing time and the ordered list of
  actions it performs when fired.
* Fallible operations return `Except` together with the post-state, because
  Go error paths can leave the state partially mutated.
* As a ghost observation, the create/update entry point also returns the
  number of backend-construction attempts performed, so counting claims can be
  stated without changing any control flow.
-/

/-! ## Association lists

Go maps are embedded as association lists with reference semantics for their
`*Redirect` values.  `lookupA` finds the first binding, `insertA` replaces or
adds a binding, `eraseA` is Go's `delete`. -/

def lookupA {α β : Type} [DecidableEq α] : List (α × β) → α → Option β
  | [], _ => none
  | (k, v) :: t, a => if k = a then some v else lookupA t a

def eraseA {α β : Type} [DecidableEq α] (l : List (α × β)) (a : α) : List (α × β) :=
  l.filter (fun kv => kv.1 ≠ a)

def insertA {α β : Type} [DecidableEq α] (l : List (α × β)) (a : α) (b : β) : List (α × β) :=
  (a, b) :: eraseA l a

theorem lookupA_eraseA_self {α β : Type} [DecidableEq α] (l : List (α × β)) (a : α) :
    lookupA (eraseA l a) a = none := by
  induction l with
  | nil => rfl
  | cons kv t ih =>
    by_cases h : kv.1 = a
    · simpa [eraseA, List.filter, h] using ih
    · simpa [eraseA, List.filter, h, lookupA] using ih

theorem lookupA_eraseA_ne {α β : Type} [DecidableEq α] (l : List (α × β)) (a b : α)
    (hab : a ≠ b) : lookupA (eraseA l a) b = lookupA l b := by
  induction l with
  | nil => rfl
  | cons kv t ih =>
    rcases kv with ⟨k, v⟩
    by_cases h : k = a
    · subst h
      simpa [eraseA, List.filter_cons, lookupA, hab, Ne.symm hab] using ih
    · by_cases hkb : k = b
      · simp [eraseA, List.filter_cons, lookupA, h, hkb, Ne.symm hab]
      · simpa [eraseA, List.filter_cons, lookupA, h, hkb] using ih

theorem lookupA_insertA_self {α β : Type} [DecidableEq α] (l : List (α × β)) (a : α) (b : β) :
    lookupA (insertA l a b) a = some b := by
  simp [insertA, lookupA]

theorem lookupA_insertA_ne {α β : Type} [DecidableEq α] (l : List (α × β)) (a c : α) (b : β)
    (hac : a ≠ c) : lookupA (insertA l a b) c = lookupA l c := by
  simp only [insertA, lookupA, if_neg hac]
  exact lookupA_eraseA_ne l a c hac

/-! ## Data model -/

/-- Parser type constant from `pkg/policy`: `ParserTypeHTTP`. -/
def ParserTypeHTTP : String := "http"

/-- Parser type constant from `pkg/policy`: `ParserTypeKafka`. -/
def ParserTypeKafka : String := "kafka"

/-- The fields of `policy.L4Filter` that `proxy.go` reads: the declared port,
direction, L7 parser type, and the L7 rule set (kept opaque as a token,
since the manager only copies it wholesale). -/
structure L4Filter where
  Port : Nat
  Ingress : Bool
  L7Parser : String
  rules : Nat
deriving Repr, DecidableEq

/-- The `Redirect` record (struct in `redirect.go`, fields as used by
`proxy.go` and described in spec §3).  `sourceID` stands in for the
`EndpointInfoSource` capability (only `GetID` is consulted here);
`rules` is the opaque rule-set token; `implementation` is an opaque
token for the backend proxy instance handle. -/
structure Redirect where
  port : Nat
  sourceID : Nat
  id : String
  created : Nat
  lastUpdated : Nat
  endpointID : Nat
  ingress : Bool
  parserType : String
  ProxyPort : Nat
  rules : Nat
  implementation : Nat
deriving Repr, DecidableEq

/-- References into the heap of live `Redirect` objects. -/
abbrev Ref := Nat

/-- The `Proxy` struct from `proxy.go`.  `allocatedPorts` and `redirects`
store references; `heap` resolves references to the current record value,
modelling Go's shared `*Redirect` pointers.  `stateDir` and the XDS server
handle are external and omitted. -/
structure Proxy where
  rangeMin : Nat
  rangeMax : Nat
  allocatedPorts : List (Nat × Ref)
  redirects : List (String × Ref)
  heap : List (Ref × Redirect)
  nextRef : Ref
deriving Repr, DecidableEq

/-- `StartProxySupport`: constructs the manager with empty indices
(the xDS/access-log server startup is external). -/
def StartProxySupport (minPort maxPort : Nat) : Proxy :=
  { rangeMin := minPort
    rangeMax := maxPort
    allocatedPorts := []
    redirects := []
    heap := []
    nextRef := 0 }

/-- `portReleaseDelay = time.Duration(5) * time.Minute`, in nanoseconds
(Go `time.Duration` is nanoseconds). -/
def portReleaseDelay : Nat := 5 * 60 * 1000000000

/-- `redirectCreationAttempts = 5`. -/
def redirectCreationAttempts : Nat := 5

/-- Errors returned by the manager, one constructor per `return .., err` site
in `proxy.go`.  Backend errors are opaque tokens (`Nat`), propagated raw by
the code. -/
inductive ProxyError where
  /-- `fmt.Errorf("no available proxy ports")` in `allocatePort`. -/
  | portsExhausted : ProxyError
  /-- `fmt.Errorf("invalid type %q, must be of type %q", l4.L7Parser, r.parserType)`. -/
  | parserMismatch (requested existing : String) : ProxyError
  /-- `fmt.Errorf("unsupported L7 parser type: %s", l4.L7Parser)`. -/
  | unsupportedParser (t : String) : ProxyError
  /-- A backend error returned raw: `UpdateRules` failure on the update path,
  or the last construction error on the create path. -/
  | backendError (e : Nat) : ProxyError
  /-- `fmt.Errorf("unable to find redirect %s", id)` in `RemoveRedirect`. -/
  | notFound (id : String) : ProxyError
  /-- Impossible in states reachable from `StartProxySupport`: a map held a
  reference that is not in the heap (a dangling `*Redirect`). -/
  | danglingRef : ProxyError
deriving Repr, DecidableEq

/-! ## Port allocation (`allocatePort`) -/

/-- The argument of `portRandomizer.Perm` in `allocatePort`:
`int(p.rangeMax - p.rangeMin + 1)` where the subtraction and the increment are
computed in `uint16`.  For `rangeMin ≤ rangeMax < 65536` this is
`(rangeMax - rangeMin + 1) % 65536`; in particular the full 65536-port range
wraps to `0`. -/
def allocSize (p : Proxy) : Nat :=
  ((p.rangeMax + 65536 - p.rangeMin) % 65536 + 1) % 65536

/-- `resPort := uint16(r) + p.rangeMin`, computed in `uint16`. -/
def portOf (p : Proxy) (r : Nat) : Nat :=
  (r % 65536 + p.rangeMin) % 65536

/-- `allocatePort` walks the random permutation of offsets and returns the
first rebased port that is not a key of `allocatedPorts`; if every offset is
taken it returns the `PortsExhausted` error.  The permutation produced by the
locked global random source is passed in as `perm`. -/
def Proxy.allocatePort (p : Proxy) (perm : List Nat) : Except ProxyError Nat :=
  match perm.find? (fun r => (lookupA p.allocatedPorts (portOf p r)).isNone) with
  | some r => .ok (portOf p r)
  | none => .error .portsExhausted

/-! ## Spec-modelled parts of `Redirect` (redirect.go is not under src/) -/

/-- Modelled from the spec: `newRedirect` is defined in `redirect.go`, which is
not under `src/`.  Per spec §3 the fresh record carries the declared port, the
endpoint-info source, the identifier, and creation timestamps (`createdAt` and
`lastUpdatedAt` both set at creation); the remaining fields are filled in by
the caller (`CreateOrUpdateRedirect` assigns `endpointID`, `ingress`,
`parserType`, the rule set, and later `ProxyPort`). -/
def newRedirect (port : Nat) (sourceID : Nat) (id : String) (now : Nat) : Redirect :=
  { port := port
    sourceID := sourceID
    id := id
    created := now
    lastUpdated := now
    endpointID := 0
    ingress := false
    parserType := ""
    ProxyPort := 0
    rules := 0
    implementation := 0 }

/-- Modelled from the spec: `Redirect.updateRules` is defined in
`redirect.go`, which is not under `src/`.  Per spec §3/§4.2 it replaces the
redirect's rule set wholesale with the filter's rule set and touches nothing
else. -/
def Redirect.updateRules (r : Redirect) (l4 : L4Filter) : Redirect :=
  { r with rules := l4.rules }

/-! ## CreateOrUpdateRedirect -/

/-- Result of `CreateOrUpdateRedirect`: the post-state, the returned
`*Redirect` (as a heap reference) or error, and — as a ghost observation —
the number of backend-construction attempts (calls of `createKafkaRedirect` /
`createEnvoyRedirect`) the call performed. -/
structure OpResult where
  proxy : Proxy
  res : Except ProxyError Ref
  backendAttempts : Nat
deriving Repr

/-- The successful exit of the create loop: `p.allocatedPorts[to] = redir;
p.redirects[id] = redir`.  The fresh heap reference models the new
`*Redirect` pointer shared by both maps. -/
def registerRedirect (p : Proxy) (toPort : Nat) (id : String) (redir : Redirect) : Proxy :=
  { p with
    allocatedPorts := insertA p.allocatedPorts toPort p.nextRef
    redirects := insertA p.redirects id p.nextRef
    heap := insertA p.heap p.nextRef redir
    nextRef := p.nextRef + 1 }

/-- The `retryCreatePort` loop of `CreateOrUpdateRedirect`.

`attemptsLeft` is `redirectCreationAttempts - nRetry`, so the Go guard
`nRetry >= redirectCreationAttempts` is `attemptsLeft = 0`; `attemptIdx`
counts loop iterations and indexes the oracles: `perms n` is the permutation
the random source yields at iteration `n`, and `kafkaFac n` / `envoyFac n` is
the outcome of the backend factory called at iteration `n` (`.ok impl` or
`.error e` with opaque tokens). -/
def createLoop (p : Proxy) (redir : Redirect) (l4 : L4Filter) (id : String)
    (perms : Nat → List Nat) (kafkaFac envoyFac : Nat → Except Nat Nat) :
    Nat → Nat → OpResult
  | attemptsLeft, attemptIdx =>
    match p.allocatePort (perms attemptIdx) with
    | .error e => ⟨p, .error e, 0⟩
    | .ok toPort =>
      let redir1 := { redir with ProxyPort := toPort }
      let fac : Except ProxyError Nat :=
        if l4.L7Parser = ParserTypeKafka then
          match kafkaFac attemptIdx with
          | .ok impl => .ok impl
          | .error e => .error (.backendError e)
        else if l4.L7Parser = ParserTypeHTTP then
          match envoyFac attemptIdx with
          | .ok impl => .ok impl
          | .error e => .error (.backendError e)
        else .error (.unsupportedParser l4.L7Parser)
      match fac with
      | .error (.unsupportedParser t) => ⟨p, .error (.unsupportedParser t), 0⟩
      | .ok impl =>
        let redir2 := { redir1 with implementation := impl }
        ⟨registerRedirect p toPort id redir2, .ok p.nextRef, 1⟩
      | .error e =>
        match attemptsLeft with
        | 0 => ⟨p, .error e, 1⟩
        | n + 1 =>
          let out := createLoop p redir1 l4 id perms kafkaFac envoyFac n (attemptIdx + 1)
          ⟨out.proxy, out.res, out.backendAttempts + 1⟩

/-- The redirect record built on the create path before the retry loop:
`newRedirect(uint16(l4.Port), source, id)` followed by the assignments of
`endpointID`, `ingress`, `parserType` and the initial `updateRules(l4)`
(`uint16(l4.Port)` is the explicit 16-bit truncation). -/
def redirForCreate (l4 : L4Filter) (sourceID : Nat) (id : String) (now : Nat) : Redirect :=
  ({ newRedirect (l4.Port % 65536) sourceID id now with
      endpointID := sourceID
      ingress := l4.Ingress
      parserType := l4.L7Parser }).updateRules l4

/-- `CreateOrUpdateRedirect`.

The one-time `gcOnce.Do` initialization (access-log notifier registration,
log file, metadata, periodic `proxymap.GC` task) is an external side effect
with no influence on the manager's maps, and is not modelled here (see the
claim about it).  External oracles: `perms`/`kafkaFac`/`envoyFac` as in
`createLoop`, and `updRes` is the outcome of `r.implementation.UpdateRules(wg)`
on the update path. -/
def Proxy.CreateOrUpdateRedirect (p : Proxy) (l4 : L4Filter) (id : String)
    (sourceID : Nat) (now : Nat) (perms : Nat → List Nat)
    (kafkaFac envoyFac : Nat → Except Nat Nat) (updRes : Except Nat Unit) : OpResult :=
  match lookupA p.redirects id with
  | some ref =>
    match lookupA p.heap ref with
    | none => ⟨p, .error .danglingRef, 0⟩
    | some r =>
      if r.parserType ≠ l4.L7Parser then
        ⟨p, .error (.parserMismatch l4.L7Parser r.parserType), 0⟩
      else
        let r1 := r.updateRules l4
        match updRes with
        | .error e => ⟨{ p with heap := insertA p.heap ref r1 }, .error (.backendError e), 0⟩
        | .ok _ =>
          let r2 := { r1 with lastUpdated := now }
          ⟨{ p with heap := insertA p.heap ref r2 }, .ok ref, 0⟩
  | none =>
    createLoop p (redirForCreate l4 sourceID id now) l4 id perms kafkaFac envoyFac
      redirectCreationAttempts 0

/-! ## RemoveRedirect and the deferred port release -/

/-- The deferred goroutine `RemoveRedirect` spawns: it fires `portReleaseDelay`
nanoseconds after the removal and then releases `r.ProxyPort`.  (`ProxyPort`
is never written after registration, so capturing it at scheduling time equals
Go's read at firing time.) -/
structure ScheduledRelease where
  port : Nat
  fireAt : Nat
deriving Repr, DecidableEq

/-- Externally visible actions of the deferred release goroutine, in program
order. -/
inductive ReleaseAction where
  /-- `proxymap.CleanupOnRedirectClose(r.ProxyPort)`. -/
  | cleanupOnRedirectClose (port : Nat) : ReleaseAction
  /-- `delete(p.allocatedPorts, r.ProxyPort)` under `p.mutex`. -/
  | releasePort (port : Nat) : ReleaseAction
deriving Repr, DecidableEq

/-- The ordered action trace of one deferred release task: the connection-table
cleanup for the port strictly precedes the deletion of the port from
`allocatedPorts`. -/
def releaseTaskActions (t : ScheduledRelease) : List ReleaseAction :=
  [.cleanupOnRedirectClose t.port, .releasePort t.port]

/-- The task may fire only once its delay has elapsed. -/
def canFire (t : ScheduledRelease) (time : Nat) : Prop :=
  t.fireAt ≤ time

/-- The state mutation the deferred task performs when it fires:
`delete(p.allocatedPorts, r.ProxyPort)`. -/
def fireRelease (p : Proxy) (t : ScheduledRelease) : Proxy :=
  { p with allocatedPorts := eraseA p.allocatedPorts t.port }

/-- `RemoveRedirect`: on a known identifier, close the backend (external),
delete the identifier from `redirects`, and schedule the deferred port
release.  Returns the post-state and the scheduled task. -/
def Proxy.RemoveRedirect (p : Proxy) (id : String) (now : Nat) :
    Except ProxyError (Proxy × ScheduledRelease) :=
  match lookupA p.redirects id with
  | none => .error (.notFound id)
  | some ref =>
    match lookupA p.heap ref with
    | none => .error .danglingRef
    | some r =>
      .ok ({ p with redirects := eraseA p.redirects id },
           { port := r.ProxyPort, fireAt := now + portReleaseDelay })

/-! ## System transitions -/

/-- Manager state plus the set of deferred release tasks that have been
scheduled but have not fired yet. -/
structure SysState where
  proxy : Proxy
  pending : List ScheduledRelease
deriving Repr, DecidableEq

/-- One step of the system: any `CreateOrUpdateRedirect` call (with arbitrary
inputs and oracle outcomes), any successful `RemoveRedirect` (which schedules
a release task), a failed `RemoveRedirect` (no state change), or the firing of
a pending release task whose delay has elapsed. -/
inductive Step : SysState → SysState → Prop where
  | createOrUpdate (s : SysState) (l4 : L4Filter) (id : String) (sourceID now : Nat)
      (perms : Nat → List Nat) (kafkaFac envoyFac : Nat → Except Nat Nat)
      (updRes : Except Nat Unit)
      (hperms : ∀ n, (perms n).Perm (List.range (allocSize s.proxy))) :
      Step s ⟨(s.proxy.CreateOrUpdateRedirect l4 id sourceID now perms kafkaFac envoyFac
                updRes).proxy, s.pending⟩
  | removeOk (s : SysState) (id : String) (now : Nat) (p' : Proxy) (t : ScheduledRelease)
      (h : s.proxy.RemoveRedirect id now = .ok (p', t)) :
      Step s ⟨p', t :: s.pending⟩
  | removeErr (s : SysState) (id : String) (now : Nat) (e : ProxyError)
      (h : s.proxy.RemoveRedirect id now = .error e) :
      Step s s
  | fire (s : SysState) (t : ScheduledRelease) (l1 l2 : List ScheduledRelease) (time : Nat)
      (hp : s.pending = l1 ++ t :: l2) (ht : canFire t time) :
      Step s ⟨fireRelease s.proxy t, l1 ++ l2⟩

/-- Reachability from a given initial state through manager operations. -/
def Reachable (init s : SysState) : Prop :=
  Relation.ReflTransGen Step init s

/-! ## Lemma kit: association lists -/

theorem lookupA_insertA_eq_some {α β : Type} [DecidableEq α] (l : List (α × β)) (a c : α)
    (b d : β) :
    lookupA (insertA l a b) c = some d ↔ (c = a ∧ d = b) ∨ (c ≠ a ∧ lookupA l c = some d) := by
  by_cases h : c = a
  · subst h
    rw [lookupA_insertA_self]
    simp [eq_comm]
  · rw [lookupA_insertA_ne l a c b (Ne.symm h)]
    simp [h]

theorem lookupA_eraseA_eq_some {α β : Type} [DecidableEq α] (l : List (α × β)) (a c : α)
    (d : β) :
    lookupA (eraseA l a) c = some d ↔ c ≠ a ∧ lookupA l c = some d := by
  by_cases h : c = a
  · subst h
    rw [lookupA_eraseA_self]
    simp
  · rw [lookupA_eraseA_ne l a c (Ne.symm h)]
    simp [h]

/-! ## Lemma kit: port allocation -/

theorem allocSize_le (p : Proxy) (hle : p.rangeMin ≤ p.rangeMax) (_hlt : p.rangeMax < 65536) :
    allocSize p ≤ p.rangeMax - p.rangeMin + 1 := by
  unfold allocSize
  omega

theorem allocSize_eq (p : Proxy) (hle : p.rangeMin ≤ p.rangeMax) (_hlt : p.rangeMax < 65536)
    (hsize : p.rangeMax - p.rangeMin + 1 < 65536) :
    allocSize p = p.rangeMax - p.rangeMin + 1 := by
  unfold allocSize
  omega

theorem portOf_eq (p : Proxy) (r : Nat) (hr : r + p.rangeMin < 65536) :
    portOf p r = r + p.rangeMin := by
  unfold portOf
  omega

/-- A port returned by `allocatePort` is not currently allocated (this needs no
side conditions: it is exactly the predicate `find?` checked). -/
theorem allocatePort_ok_free (p : Proxy) (perm : List Nat) (q : Nat)
    (h : p.allocatePort perm = .ok q) : lookupA p.allocatedPorts q = none := by
  unfold Proxy.allocatePort at h
  cases hf : perm.find? (fun r => (lookupA p.allocatedPorts (portOf p r)).isNone) with
  | none => rw [hf] at h; cases h
  | some r =>
    rw [hf] at h
    have hpred := List.find?_some hf
    injection h with h
    subst h
    simpa [Option.isNone_iff_eq_none] using hpred

/-- A port returned by `allocatePort` lies in the configured range, provided
the offsets tried all come from `List.range (allocSize p)` (as `rand.Perm`
guarantees) and the range bounds fit in `uint16`. -/
theorem allocatePort_ok_range (p : Proxy) (perm : List Nat) (q : Nat)
    (hle : p.rangeMin ≤ p.rangeMax) (hlt : p.rangeMax < 65536)
    (hperm : ∀ r ∈ perm, r < allocSize p)
    (h : p.allocatePort perm = .ok q) :
    p.rangeMin ≤ q ∧ q ≤ p.rangeMax := by
  unfold Proxy.allocatePort at h
  cases hf : perm.find? (fun r => (lookupA p.allocatedPorts (portOf p r)).isNone) with
  | none => rw [hf] at h; cases h
  | some r =>
    rw [hf] at h
    injection h with h
    subst h
    have hmem := List.mem_of_find?_eq_some hf
    have hr : r < allocSize p := hperm r hmem
    have hsz := allocSize_le p hle hlt
    unfold portOf
    omega

/-- If every port in the configured range is allocated, `allocatePort` fails
with the ports-exhausted error. -/
theorem allocatePort_err_of_all_allocated (p : Proxy) (perm : List Nat)
    (hle : p.rangeMin ≤ p.rangeMax) (hlt : p.rangeMax < 65536)
    (hperm : ∀ r ∈ perm, r < allocSize p)
    (hall : ∀ q, p.rangeMin ≤ q → q ≤ p.rangeMax → (lookupA p.allocatedPorts q).isSome) :
    p.allocatePort perm = .error .portsExhausted := by
  unfold Proxy.allocatePort
  have hf : perm.find? (fun r => (lookupA p.allocatedPorts (portOf p r)).isNone) = none := by
    rw [List.find?_eq_none]
    intro r hr
    have hrs : r < allocSize p := hperm r hr
    have hsz := allocSize_le p hle hlt
    have hport : portOf p r = r + p.rangeMin := portOf_eq p r (by omega)
    have hin := hall (portOf p r) (by omega) (by omega)
    simp only [Option.isSome_iff_exists] at hin
    obtain ⟨v, hv⟩ := hin
    simp [hv]
  rw [hf]

/-- Conversely, when `allocatePort` fails and the permutation covers every
offset of a range whose size does not wrap in `uint16`, every port of the
range is allocated. -/
theorem all_allocated_of_allocatePort_err (p : Proxy) (perm : List Nat) (e : ProxyError)
    (hle : p.rangeMin ≤ p.rangeMax) (hlt : p.rangeMax < 65536)
    (hsize : p.rangeMax - p.rangeMin + 1 < 65536)
    (hperm : perm.Perm (List.range (allocSize p)))
    (h : p.allocatePort perm = .error e) :
    ∀ q, p.rangeMin ≤ q → q ≤ p.rangeMax → (lookupA p.allocatedPorts q).isSome := by
  intro q h1 h2
  unfold Proxy.allocatePort at h
  cases hf : perm.find? (fun r => (lookupA p.allocatedPorts (portOf p r)).isNone) with
  | some r => rw [hf] at h; cases h
  | none =>
    have hsz := allocSize_eq p hle hlt hsize
    have hmem : q - p.rangeMin ∈ perm := by
      rw [hperm.mem_iff, List.mem_range]
      omega
    have hnp := List.find?_eq_none.mp hf _ hmem
    have hport : portOf p (q - p.rangeMin) = q := by
      unfold portOf
      omega
    rw [hport] at hnp
    simp only [Bool.not_eq_true, Option.isNone_iff_eq_none] at hnp
    cases hlk : lookupA p.allocatedPorts q with
    | none => rw [hlk] at hnp; simp at hnp
    | some v => simp

/-! ## Lemma kit: the create loop -/

theorem http_ne_kafka : ParserTypeHTTP ≠ ParserTypeKafka := by decide

/-- If port allocation fails, the loop aborts at once: no backend attempt, no
state change, the allocation error surfaced. -/
theorem createLoop_alloc_err (p : Proxy) (redir : Redirect) (l4 : L4Filter) (id : String)
    (perms : Nat → List Nat) (kF eF : Nat → Except Nat Nat) (n k : Nat) (e : ProxyError)
    (hal : p.allocatePort (perms k) = .error e) :
    createLoop p redir l4 id perms kF eF n k = ⟨p, .error e, 0⟩ := by
  unfold createLoop
  rw [hal]

/-- An unrecognized parser type aborts the loop at once: no backend attempt,
no state change. -/
theorem createLoop_unsupported (p : Proxy) (redir : Redirect) (l4 : L4Filter) (id : String)
    (perms : Nat → List Nat) (kF eF : Nat → Except Nat Nat) (n k : Nat) (q : Nat)
    (hal : p.allocatePort (perms k) = .ok q)
    (hk : l4.L7Parser ≠ ParserTypeKafka) (hh : l4.L7Parser ≠ ParserTypeHTTP) :
    createLoop p redir l4 id perms kF eF n k =
      ⟨p, .error (.unsupportedParser l4.L7Parser), 0⟩ := by
  unfold createLoop
  rw [hal]
  simp [hk, hh]

/-- Every terminal outcome of the create loop: either it returns an error and
the state is untouched, or some attempt's allocation and factory both
succeeded and the state is exactly the registration of that attempt's
redirect under its candidate port. -/
theorem createLoop_cases (p : Proxy) (l4 : L4Filter) (id : String)
    (perms : Nat → List Nat) (kF eF : Nat → Except Nat Nat) :
    ∀ (n k : Nat) (redir : Redirect),
      ((createLoop p redir l4 id perms kF eF n k).proxy = p ∧
        ∃ e, (createLoop p redir l4 id perms kF eF n k).res = .error e) ∨
      (∃ m q r2, p.allocatePort (perms m) = .ok q ∧ r2.ProxyPort = q ∧
        (createLoop p redir l4 id perms kF eF n k).proxy = registerRedirect p q id r2 ∧
        (createLoop p redir l4 id perms kF eF n k).res = .ok p.nextRef) := by
  intro n
  induction n with
  | zero =>
    intro k redir
    cases hal : p.allocatePort (perms k) with
    | error e =>
      rw [createLoop_alloc_err p redir l4 id perms kF eF 0 k e hal]
      exact Or.inl ⟨rfl, e, rfl⟩
    | ok q =>
      by_cases hk : l4.L7Parser = ParserTypeKafka
      · cases hkf : kF k with
        | ok impl =>
          refine Or.inr ⟨k, q, { redir with ProxyPort := q, implementation := impl },
            hal, rfl, ?_, ?_⟩ <;>
          · unfold createLoop
            rw [hal]
            simp [hk, hkf]
        | error e =>
          refine Or.inl ⟨?_, .backendError e, ?_⟩ <;>
          · unfold createLoop
            rw [hal]
            simp [hk, hkf]
      · by_cases hh : l4.L7Parser = ParserTypeHTTP
        · cases hef : eF k with
          | ok impl =>
            refine Or.inr ⟨k, q, { redir with ProxyPort := q, implementation := impl },
              hal, rfl, ?_, ?_⟩ <;>
            · unfold createLoop
              rw [hal]
              simp [hk, hh, hef, http_ne_kafka]
          | error e =>
            refine Or.inl ⟨?_, .backendError e, ?_⟩ <;>
            · unfold createLoop
              rw [hal]
              simp [hk, hh, hef, http_ne_kafka]
        · rw [createLoop_unsupported p redir l4 id perms kF eF 0 k q hal hk hh]
          exact Or.inl ⟨rfl, .unsupportedParser l4.L7Parser, rfl⟩
  | succ n ih =>
    intro k redir
    cases hal : p.allocatePort (perms k) with
    | error e =>
      rw [createLoop_alloc_err p redir l4 id perms kF eF (n + 1) k e hal]
      exact Or.inl ⟨rfl, e, rfl⟩
    | ok q =>
      by_cases hk : l4.L7Parser = ParserTypeKafka
      · cases hkf : kF k with
        | ok impl =>
          refine Or.inr ⟨k, q, { redir with ProxyPort := q, implementation := impl },
            hal, rfl, ?_, ?_⟩ <;>
          · unfold createLoop
            rw [hal]
            simp [hk, hkf]
        | error e =>
          have hrec := ih (k + 1) { redir with ProxyPort := q }
          have hred : createLoop p redir l4 id perms kF eF (n + 1) k =
              ⟨(createLoop p { redir with ProxyPort := q } l4 id perms kF eF n (k + 1)).proxy,
               (createLoop p { redir with ProxyPort := q } l4 id perms kF eF n (k + 1)).res,
               (createLoop p { redir with ProxyPort := q } l4 id perms kF eF n
                  (k + 1)).backendAttempts + 1⟩ := by
            conv_lhs => unfold createLoop
            rw [hal]
            simp [hk, hkf]
          rw [hred]
          rcases hrec with ⟨h1, e', h2⟩ | ⟨m, q', r2, h1, h2, h3, h4⟩
          · exact Or.inl ⟨h1, e', h2⟩
          · exact Or.inr ⟨m, q', r2, h1, h2, h3, h4⟩
      · by_cases hh : l4.L7Parser = ParserTypeHTTP
        · cases hef : eF k with
          | ok impl =>
            refine Or.inr ⟨k, q, { redir with ProxyPort := q, implementation := impl },
              hal, rfl, ?_, ?_⟩ <;>
            · unfold createLoop
              rw [hal]
              simp [hk, hh, hef, http_ne_kafka]
          | error e =>
            have hrec := ih (k + 1) { redir with ProxyPort := q }
            have hred : createLoop p redir l4 id perms kF eF (n + 1) k =
                ⟨(createLoop p { redir with ProxyPort := q } l4 id perms kF eF n (k + 1)).proxy,
                 (createLoop p { redir with ProxyPort := q } l4 id perms kF eF n (k + 1)).res,
                 (createLoop p { redir with ProxyPort := q } l4 id perms kF eF n
                    (k + 1)).backendAttempts + 1⟩ := by
              conv_lhs => unfold createLoop
              rw [hal]
              simp [hk, hh, hef, http_ne_kafka]
            rw [hred]
            rcases hrec with ⟨h1, e', h2⟩ | ⟨m, q', r2, h1, h2, h3, h4⟩
            · exact Or.inl ⟨h1, e', h2⟩
            · exact Or.inr ⟨m, q', r2, h1, h2, h3, h4⟩
        · rw [createLoop_unsupported p redir l4 id perms kF eF (n + 1) k q hal hk hh]
          exact Or.inl ⟨rfl, .unsupportedParser l4.L7Parser, rfl⟩

/-- If backend construction fails at every attempt and allocation always
yields a candidate, the loop runs all its iterations, returns the error of the
last factory call, touches no state, and makes `attemptsLeft + 1`
backend-construction attempts. -/
theorem createLoop_persistent_failure (p : Proxy) (l4 : L4Filter) (id : String)
    (perms : Nat → List Nat) (kF eF : Nat → Except Nat Nat) (errs : Nat → Nat)
    (hparser : l4.L7Parser = ParserTypeKafka ∨ l4.L7Parser = ParserTypeHTTP)
    (hkf : ∀ n, kF n = .error (errs n)) (hef : ∀ n, eF n = .error (errs n))
    (hal : ∀ n, ∃ q, p.allocatePort (perms n) = .ok q) :
    ∀ (n k : Nat) (redir : Redirect),
      createLoop p redir l4 id perms kF eF n k =
        ⟨p, .error (.backendError (errs (k + n))), n + 1⟩ := by
  intro n
  induction n with
  | zero =>
    intro k redir
    obtain ⟨q, hq⟩ := hal k
    unfold createLoop
    rw [hq]
    rcases hparser with hp | hp
    · simp [hp, hkf k]
    · simp [hp, http_ne_kafka, hef k]
  | succ n ih =>
    intro k redir
    obtain ⟨q, hq⟩ := hal k
    have hrec := ih (k + 1) { redir with ProxyPort := q }
    have harith : k + 1 + n = k + (n + 1) := by omega
    unfold createLoop
    rw [hq]
    rcases hparser with hp | hp
    · simp [hp, hkf k, hrec, harith]
    · simp [hp, http_ne_kafka, hef k, hrec, harith]

/-! ## Lemma kit: the entry points -/

/-- Update path, parser mismatch: the error is returned with no state change
of any kind. -/
theorem createOrUpdate_update_mismatch (p : Proxy) (l4 : L4Filter) (id : String)
    (sourceID now : Nat) (perms : Nat → List Nat) (kF eF : Nat → Except Nat Nat)
    (updRes : Except Nat Unit) (ref : Ref) (r : Redirect)
    (hid : lookupA p.redirects id = some ref) (hr : lookupA p.heap ref = some r)
    (hne : r.parserType ≠ l4.L7Parser) :
    p.CreateOrUpdateRedirect l4 id sourceID now perms kF eF updRes =
      ⟨p, .error (.parserMismatch l4.L7Parser r.parserType), 0⟩ := by
  unfold Proxy.CreateOrUpdateRedirect
  simp [hid, hr, hne]

/-- Update path, matching parser, backend accepts the new rules: the stored
record gets the new rule set and a fresh `lastUpdated`, and the existing
reference is returned. -/
theorem createOrUpdate_update_ok (p : Proxy) (l4 : L4Filter) (id : String)
    (sourceID now : Nat) (perms : Nat → List Nat) (kF eF : Nat → Except Nat Nat)
    (ref : Ref) (r : Redirect)
    (hid : lookupA p.redirects id = some ref) (hr : lookupA p.heap ref = some r)
    (heq : r.parserType = l4.L7Parser) :
    p.CreateOrUpdateRedirect l4 id sourceID now perms kF eF (.ok ()) =
      ⟨{ p with heap := insertA p.heap ref { r.updateRules l4 with lastUpdated := now } },
        .ok ref, 0⟩ := by
  unfold Proxy.CreateOrUpdateRedirect
  simp [hid, hr, heq]

/-- Update path, matching parser, backend rejects the new rules: the stored
record keeps the already-replaced rule set but not a fresh `lastUpdated`, and
the backend error is returned raw. -/
theorem createOrUpdate_update_err (p : Proxy) (l4 : L4Filter) (id : String)
    (sourceID now : Nat) (perms : Nat → List Nat) (kF eF : Nat → Except Nat Nat)
    (e : Nat) (ref : Ref) (r : Redirect)
    (hid : lookupA p.redirects id = some ref) (hr : lookupA p.heap ref = some r)
    (heq : r.parserType = l4.L7Parser) :
    p.CreateOrUpdateRedirect l4 id sourceID now perms kF eF (.error e) =
      ⟨{ p with heap := insertA p.heap ref (r.updateRules l4) },
        .error (.backendError e), 0⟩ := by
  unfold Proxy.CreateOrUpdateRedirect
  simp [hid, hr, heq]

/-- Create path: an absent identifier routes to the retry loop with the
freshly constructed record. -/
theorem createOrUpdate_create_path (p : Proxy) (l4 : L4Filter) (id : String)
    (sourceID now : Nat) (perms : Nat → List Nat) (kF eF : Nat → Except Nat Nat)
    (updRes : Except Nat Unit) (hid : lookupA p.redirects id = none) :
    p.CreateOrUpdateRedirect l4 id sourceID now perms kF eF updRes =
      createLoop p (redirForCreate l4 sourceID id now) l4 id perms kF eF
        redirectCreationAttempts 0 := by
  unfold Proxy.CreateOrUpdateRedirect
  rw [hid]

/-- `RemoveRedirect` on a present identifier: unfolding lemma. -/
theorem removeRedirect_present (p : Proxy) (id : String) (now : Nat) (ref : Ref) (r : Redirect)
    (hid : lookupA p.redirects id = some ref) (hr : lookupA p.heap ref = some r) :
    p.RemoveRedirect id now =
      .ok ({ p with redirects := eraseA p.redirects id },
           { port := r.ProxyPort, fireAt := now + portReleaseDelay }) := by
  unfold Proxy.RemoveRedirect
  simp [hid, hr]

/-! ## The manager invariant -/

/-- The invariant claimed in the spec (§3): allocated ports lie in the
configured range, the redirect stored under an allocated port carries that
port in its `ProxyPort` field, and every indexed redirect's `ProxyPort` is an
allocated port. -/
def ClaimInv (p : Proxy) : Prop :=
  (∀ q ref, lookupA p.allocatedPorts q = some ref →
    p.rangeMin ≤ q ∧ q ≤ p.rangeMax ∧
      ∃ r, lookupA p.heap ref = some r ∧ r.ProxyPort = q) ∧
  (∀ id ref, lookupA p.redirects id = some ref →
    ∃ r, lookupA p.heap ref = some r ∧ ∃ ref2, lookupA p.allocatedPorts r.ProxyPort = some ref2)

/-- The inductive strengthening of `ClaimInv` that is actually preserved by
every transition.  Beyond the claimed conjuncts it records: the range bounds
fixed at construction fit `uint16`; each indexed redirect's port entry points
back to the same reference (`red_back`); no two identifiers share a reference
(`red_inj`); all stored references were minted by `nextRef` (`_lt` fields);
every pending release task's port is still allocated, is owned by no indexed
redirect, and pending ports are pairwise distinct. -/
structure InvS (s : SysState) : Prop where
  range_le : s.proxy.rangeMin ≤ s.proxy.rangeMax
  range_lt : s.proxy.rangeMax < 65536
  ports_range : ∀ q ref, lookupA s.proxy.allocatedPorts q = some ref →
    s.proxy.rangeMin ≤ q ∧ q ≤ s.proxy.rangeMax
  ports_heap : ∀ q ref, lookupA s.proxy.allocatedPorts q = some ref →
    ∃ r, lookupA s.proxy.heap ref = some r ∧ r.ProxyPort = q
  red_back : ∀ id ref, lookupA s.proxy.redirects id = some ref →
    ∃ r, lookupA s.proxy.heap ref = some r ∧
      lookupA s.proxy.allocatedPorts r.ProxyPort = some ref
  red_inj : ∀ id1 id2 ref, lookupA s.proxy.redirects id1 = some ref →
    lookupA s.proxy.redirects id2 = some ref → id1 = id2
  red_lt : ∀ id ref, lookupA s.proxy.redirects id = some ref → ref < s.proxy.nextRef
  ports_lt : ∀ q ref, lookupA s.proxy.allocatedPorts q = some ref → ref < s.proxy.nextRef
  heap_lt : ∀ ref r, lookupA s.proxy.heap ref = some r → ref < s.proxy.nextRef
  pend_alloc : ∀ t ∈ s.pending, ∃ ref, lookupA s.proxy.allocatedPorts t.port = some ref
  pend_not_red : ∀ t ∈ s.pending, ∀ id ref r, lookupA s.proxy.redirects id = some ref →
    lookupA s.proxy.heap ref = some r → r.ProxyPort ≠ t.port
  pend_nodup : (s.pending.map ScheduledRelease.port).Nodup

theorem claimInv_of_invS (s : SysState) (h : InvS s) : ClaimInv s.proxy := by
  constructor
  · intro q ref hq
    obtain ⟨h1, h2⟩ := h.ports_range q ref hq
    exact ⟨h1, h2, h.ports_heap q ref hq⟩
  · intro id ref hid
    obtain ⟨r, hr, hback⟩ := h.red_back id ref hid
    exact ⟨r, hr, ref, hback⟩

theorem invS_init (minPort maxPort : Nat) (hle : minPort ≤ maxPort) (hlt : maxPort < 65536) :
    InvS ⟨StartProxySupport minPort maxPort, []⟩ := by
  refine ⟨hle, hlt, ?_, ?_, ?_, ?_, ?_, ?_, ?_, ?_, ?_, ?_⟩ <;>
    simp [StartProxySupport, lookupA]

/-- Writing back a heap record with an unchanged `ProxyPort` (the update path)
preserves the invariant. -/
theorem invS_heap_write (p : Proxy) (pend : List ScheduledRelease) (ref : Ref)
    (r rNew : Redirect) (hr : lookupA p.heap ref = some r)
    (hpp : rNew.ProxyPort = r.ProxyPort)
    (hinv : InvS ⟨p, pend⟩) :
    InvS ⟨{ p with heap := insertA p.heap ref rNew }, pend⟩ := by
  have hHeapNe : ∀ ref' : Ref, ref' ≠ ref →
      lookupA (insertA p.heap ref rNew) ref' = lookupA p.heap ref' := by
    intro ref' h
    exact lookupA_insertA_ne p.heap ref ref' rNew (fun hh => h hh.symm)
  refine ⟨hinv.range_le, hinv.range_lt, hinv.ports_range, ?_, ?_, hinv.red_inj,
    hinv.red_lt, hinv.ports_lt, ?_, hinv.pend_alloc, ?_, hinv.pend_nodup⟩
  · intro q ref' hq
    obtain ⟨r0, hr0, hr0pp⟩ := hinv.ports_heap q ref' hq
    by_cases href : ref' = ref
    · subst href
      rw [hr0] at hr
      injection hr with hr
      subst hr
      refine ⟨rNew, lookupA_insertA_self p.heap ref' rNew, ?_⟩
      rw [hpp, hr0pp]
    · refine ⟨r0, ?_, hr0pp⟩
      show lookupA (insertA p.heap ref rNew) ref' = some r0
      rw [hHeapNe ref' href]
      exact hr0
  · intro id' ref' hid'
    obtain ⟨r0, hr0, hback⟩ := hinv.red_back id' ref' hid'
    by_cases href : ref' = ref
    · subst href
      rw [hr0] at hr
      injection hr with hr
      subst hr
      refine ⟨rNew, lookupA_insertA_self p.heap ref' rNew, ?_⟩
      show lookupA p.allocatedPorts rNew.ProxyPort = some ref'
      rw [hpp]
      exact hback
    · refine ⟨r0, ?_, hback⟩
      show lookupA (insertA p.heap ref rNew) ref' = some r0
      rw [hHeapNe ref' href]
      exact hr0
  · intro ref' r' h1
    have h1' : lookupA (insertA p.heap ref rNew) ref' = some r' := h1
    rw [lookupA_insertA_eq_some] at h1'
    rcases h1' with ⟨he, _⟩ | ⟨_, hold⟩
    · subst he
      exact hinv.heap_lt ref' r hr
    · exact hinv.heap_lt ref' r' hold
  · intro t ht id' ref' r' h1 h2
    have h2' : lookupA (insertA p.heap ref rNew) ref' = some r' := h2
    rw [lookupA_insertA_eq_some] at h2'
    rcases h2' with ⟨he, hrn⟩ | ⟨_, hold⟩
    · rw [he] at h1
      rw [hrn, hpp]
      exact hinv.pend_not_red t ht id' ref r h1 hr
    · exact hinv.pend_not_red t ht id' ref' r' h1 hold

/-- Registering a freshly created redirect under a free in-range port (the
successful create path) preserves the invariant. -/
theorem invS_register (p : Proxy) (pend : List ScheduledRelease) (q : Nat) (id : String)
    (r2 : Redirect)
    (hfree : lookupA p.allocatedPorts q = none)
    (hid : lookupA p.redirects id = none)
    (hq1 : p.rangeMin ≤ q) (hq2 : q ≤ p.rangeMax)
    (hpp : r2.ProxyPort = q)
    (hinv : InvS ⟨p, pend⟩) :
    InvS ⟨registerRedirect p q id r2, pend⟩ := by
  refine ⟨hinv.range_le, hinv.range_lt, ?_, ?_, ?_, ?_, ?_, ?_, ?_, ?_, ?_, hinv.pend_nodup⟩
  · intro q' ref' hq'
    have h1 : lookupA (insertA p.allocatedPorts q p.nextRef) q' = some ref' := hq'
    rw [lookupA_insertA_eq_some] at h1
    rcases h1 with ⟨he, _⟩ | ⟨_, hold⟩
    · subst he
      exact ⟨hq1, hq2⟩
    · exact hinv.ports_range q' ref' hold
  · intro q' ref' hq'
    have h1 : lookupA (insertA p.allocatedPorts q p.nextRef) q' = some ref' := hq'
    rw [lookupA_insertA_eq_some] at h1
    rcases h1 with ⟨he, hrf⟩ | ⟨hne, hold⟩
    · subst he
      subst hrf
      exact ⟨r2, lookupA_insertA_self p.heap p.nextRef r2, hpp⟩
    · obtain ⟨r0, hr0, hr0pp⟩ := hinv.ports_heap q' ref' hold
      have hlt : ref' < p.nextRef := hinv.ports_lt q' ref' hold
      refine ⟨r0, ?_, hr0pp⟩
      show lookupA (insertA p.heap p.nextRef r2) ref' = some r0
      rw [lookupA_insertA_ne p.heap p.nextRef ref' r2 (ne_of_gt hlt)]
      exact hr0
  · intro id' ref' hid'
    have h1 : lookupA (insertA p.redirects id p.nextRef) id' = some ref' := hid'
    rw [lookupA_insertA_eq_some] at h1
    rcases h1 with ⟨he, hrf⟩ | ⟨hne, hold⟩
    · subst he
      subst hrf
      refine ⟨r2, lookupA_insertA_self p.heap p.nextRef r2, ?_⟩
      show lookupA (insertA p.allocatedPorts q p.nextRef) r2.ProxyPort = some p.nextRef
      rw [hpp]
      exact lookupA_insertA_self p.allocatedPorts q p.nextRef
    · obtain ⟨r0, hr0, hback⟩ := hinv.red_back id' ref' hold
      have hlt : ref' < p.nextRef := hinv.red_lt id' ref' hold
      have hne2 : q ≠ r0.ProxyPort := by
        intro hcontra
        rw [← hcontra, hfree] at hback
        cases hback
      refine ⟨r0, ?_, ?_⟩
      · show lookupA (insertA p.heap p.nextRef r2) ref' = some r0
        rw [lookupA_insertA_ne p.heap p.nextRef ref' r2 (ne_of_gt hlt)]
        exact hr0
      · show lookupA (insertA p.allocatedPorts q p.nextRef) r0.ProxyPort = some ref'
        rw [lookupA_insertA_ne p.allocatedPorts q r0.ProxyPort p.nextRef hne2]
        exact hback
  · intro id1 id2 ref' ha hb
    have h1 : lookupA (insertA p.redirects id p.nextRef) id1 = some ref' := ha
    have h2 : lookupA (insertA p.redirects id p.nextRef) id2 = some ref' := hb
    rw [lookupA_insertA_eq_some] at h1 h2
    rcases h1 with ⟨he1, hrf1⟩ | ⟨hne1, hold1⟩ <;> rcases h2 with ⟨he2, hrf2⟩ | ⟨hne2, hold2⟩
    · rw [he1, he2]
    · subst hrf1
      exact absurd (hinv.red_lt id2 p.nextRef hold2) (lt_irrefl p.nextRef)
    · subst hrf2
      exact absurd (hinv.red_lt id1 p.nextRef hold1) (lt_irrefl p.nextRef)
    · exact hinv.red_inj id1 id2 ref' hold1 hold2
  · intro id' ref' ha
    have h1 : lookupA (insertA p.redirects id p.nextRef) id' = some ref' := ha
    rw [lookupA_insertA_eq_some] at h1
    show ref' < p.nextRef + 1
    rcases h1 with ⟨_, hrf⟩ | ⟨_, hold⟩
    · rw [hrf]
      exact Nat.lt_succ_self p.nextRef
    · exact Nat.lt_succ_of_lt (hinv.red_lt id' ref' hold)
  · intro q' ref' ha
    have h1 : lookupA (insertA p.allocatedPorts q p.nextRef) q' = some ref' := ha
    rw [lookupA_insertA_eq_some] at h1
    show ref' < p.nextRef + 1
    rcases h1 with ⟨_, hrf⟩ | ⟨_, hold⟩
    · rw [hrf]
      exact Nat.lt_succ_self p.nextRef
    · exact Nat.lt_succ_of_lt (hinv.ports_lt q' ref' hold)
  · intro ref' r' ha
    have h1 : lookupA (insertA p.heap p.nextRef r2) ref' = some r' := ha
    rw [lookupA_insertA_eq_some] at h1
    show ref' < p.nextRef + 1
    rcases h1 with ⟨he, _⟩ | ⟨_, hold⟩
    · rw [he]
      exact Nat.lt_succ_self p.nextRef
    · exact Nat.lt_succ_of_lt (hinv.heap_lt ref' r' hold)
  · intro t ht
    obtain ⟨ref0, href0⟩ := hinv.pend_alloc t ht
    have hne : q ≠ t.port := by
      intro hcontra
      rw [← hcontra, hfree] at href0
      cases href0
    refine ⟨ref0, ?_⟩
    show lookupA (insertA p.allocatedPorts q p.nextRef) t.port = some ref0
    rw [lookupA_insertA_ne p.allocatedPorts q t.port p.nextRef hne]
    exact href0
  · intro t ht id' ref' r' ha hb
    have h1 : lookupA (insertA p.redirects id p.nextRef) id' = some ref' := ha
    rw [lookupA_insertA_eq_some] at h1
    rcases h1 with ⟨he, hrf⟩ | ⟨hne, hold⟩
    · subst hrf
      have hb' : lookupA (insertA p.heap p.nextRef r2) p.nextRef = some r' := hb
      rw [lookupA_insertA_self] at hb'
      injection hb' with hb'
      subst hb'
      show r2.ProxyPort ≠ t.port
      rw [hpp]
      obtain ⟨ref0, href0⟩ := hinv.pend_alloc t ht
      intro hcontra
      rw [← hcontra, hfree] at href0
      cases href0
    · have hlt : ref' < p.nextRef := hinv.red_lt id' ref' hold
      have hb' : lookupA (insertA p.heap p.nextRef r2) ref' = some r' := hb
      rw [lookupA_insertA_ne p.heap p.nextRef ref' r2 (ne_of_gt hlt)] at hb'
      exact hinv.pend_not_red t ht id' ref' r' hold hb'

/-- Degenerate update path: the indexed reference has no heap record (never
happens in reachable states); state unchanged. -/
theorem createOrUpdate_dangling (p : Proxy) (l4 : L4Filter) (id : String)
    (sourceID now : Nat) (perms : Nat → List Nat) (kF eF : Nat → Except Nat Nat)
    (updRes : Except Nat Unit) (ref : Ref)
    (hid : lookupA p.redirects id = some ref) (hr : lookupA p.heap ref = none) :
    p.CreateOrUpdateRedirect l4 id sourceID now perms kF eF updRes =
      ⟨p, .error .danglingRef, 0⟩ := by
  unfold Proxy.CreateOrUpdateRedirect
  simp [hid, hr]

/-- `RemoveRedirect` preserves the invariant, with the scheduled release task
joining the pending set. -/
theorem invS_removeOk (s : SysState) (id : String) (now : Nat) (p' : Proxy)
    (t : ScheduledRelease) (h : s.proxy.RemoveRedirect id now = .ok (p', t))
    (hinv : InvS s) : InvS ⟨p', t :: s.pending⟩ := by
  cases hid : lookupA s.proxy.redirects id with
  | none =>
    unfold Proxy.RemoveRedirect at h
    rw [hid] at h
    cases h
  | some ref =>
    cases hr : lookupA s.proxy.heap ref with
    | none =>
      unfold Proxy.RemoveRedirect at h
      rw [hid] at h
      simp [hr] at h
    | some r =>
      rw [removeRedirect_present s.proxy id now ref r hid hr] at h
      injection h with h
      rw [Prod.mk.injEq] at h
      obtain ⟨h1, h2⟩ := h
      subst h1
      subst h2
      obtain ⟨r0, hr0, hback⟩ := hinv.red_back id ref hid
      rw [hr] at hr0
      injection hr0 with hr0
      subst hr0
      refine ⟨hinv.range_le, hinv.range_lt, hinv.ports_range, hinv.ports_heap, ?_, ?_, ?_,
        hinv.ports_lt, hinv.heap_lt, ?_, ?_, ?_⟩
      · intro id' ref' ha
        have h1 : lookupA (eraseA s.proxy.redirects id) id' = some ref' := ha
        rw [lookupA_eraseA_eq_some] at h1
        exact hinv.red_back id' ref' h1.2
      · intro id1 id2 ref' ha hb
        have h1 : lookupA (eraseA s.proxy.redirects id) id1 = some ref' := ha
        have h2 : lookupA (eraseA s.proxy.redirects id) id2 = some ref' := hb
        rw [lookupA_eraseA_eq_some] at h1 h2
        exact hinv.red_inj id1 id2 ref' h1.2 h2.2
      · intro id' ref' ha
        have h1 : lookupA (eraseA s.proxy.redirects id) id' = some ref' := ha
        rw [lookupA_eraseA_eq_some] at h1
        exact hinv.red_lt id' ref' h1.2
      · intro t' ht'
        rcases List.mem_cons.mp ht' with he | hmem
        · subst he
          exact ⟨ref, hback⟩
        · exact hinv.pend_alloc t' hmem
      · intro t' ht' id' ref' r' ha hb
        have h1 : lookupA (eraseA s.proxy.redirects id) id' = some ref' := ha
        rw [lookupA_eraseA_eq_some] at h1
        rcases List.mem_cons.mp ht' with he | hmem
        · subst he
          show r'.ProxyPort ≠ r.ProxyPort
          intro hcontra
          obtain ⟨r1, hr1, hback1⟩ := hinv.red_back id' ref' h1.2
          have hb' : lookupA s.proxy.heap ref' = some r' := hb
          rw [hb'] at hr1
          injection hr1 with hr1
          subst hr1
          rw [hcontra] at hback1
          rw [hback] at hback1
          injection hback1 with hback1
          exact h1.1 (hinv.red_inj id' id ref' h1.2 (hback1 ▸ hid))
        · exact hinv.pend_not_red t' hmem id' ref' r' h1.2 hb
      · refine List.nodup_cons.mpr ⟨?_, hinv.pend_nodup⟩
        intro hmem
        obtain ⟨t', ht', hport⟩ := List.mem_map.mp hmem
        exact hinv.pend_not_red t' ht' id ref r hid hr hport.symm

/-- Firing a due release task preserves the invariant. -/
theorem invS_fire (s : SysState) (t : ScheduledRelease) (l1 l2 : List ScheduledRelease)
    (hp : s.pending = l1 ++ t :: l2) (hinv : InvS s) :
    InvS ⟨fireRelease s.proxy t, l1 ++ l2⟩ := by
  have htmem : t ∈ s.pending := by
    rw [hp]
    exact List.mem_append_right l1 (List.mem_cons_self t l2)
  have hno := hinv.pend_nodup
  rw [hp, List.map_append, List.map_cons, List.nodup_middle, List.nodup_cons] at hno
  obtain ⟨hnotin, hnd⟩ := hno
  have hsub : ∀ t' ∈ l1 ++ l2, t' ∈ s.pending := by
    intro t' h
    rw [hp]
    rcases List.mem_append.mp h with h | h
    · exact List.mem_append_left _ h
    · exact List.mem_append_right _ (List.mem_cons_of_mem t h)
  have hportne : ∀ t' ∈ l1 ++ l2, t'.port ≠ t.port := by
    intro t' h heq
    apply hnotin
    rw [← heq, ← List.map_append]
    exact List.mem_map_of_mem ScheduledRelease.port h
  refine ⟨hinv.range_le, hinv.range_lt, ?_, ?_, ?_, hinv.red_inj, hinv.red_lt, ?_,
    hinv.heap_lt, ?_, ?_, ?_⟩
  · intro q ref' ha
    have h1 : lookupA (eraseA s.proxy.allocatedPorts t.port) q = some ref' := ha
    rw [lookupA_eraseA_eq_some] at h1
    exact hinv.ports_range q ref' h1.2
  · intro q ref' ha
    have h1 : lookupA (eraseA s.proxy.allocatedPorts t.port) q = some ref' := ha
    rw [lookupA_eraseA_eq_some] at h1
    exact hinv.ports_heap q ref' h1.2
  · intro id' ref' ha
    obtain ⟨r0, hr0, hback⟩ := hinv.red_back id' ref' ha
    refine ⟨r0, hr0, ?_⟩
    show lookupA (eraseA s.proxy.allocatedPorts t.port) r0.ProxyPort = some ref'
    have hne := hinv.pend_not_red t htmem id' ref' r0 ha hr0
    rw [lookupA_eraseA_ne s.proxy.allocatedPorts t.port r0.ProxyPort (Ne.symm hne)]
    exact hback
  · intro q ref' ha
    have h1 : lookupA (eraseA s.proxy.allocatedPorts t.port) q = some ref' := ha
    rw [lookupA_eraseA_eq_some] at h1
    exact hinv.ports_lt q ref' h1.2
  · intro t' ht'
    obtain ⟨ref0, href0⟩ := hinv.pend_alloc t' (hsub t' ht')
    refine ⟨ref0, ?_⟩
    show lookupA (eraseA s.proxy.allocatedPorts t.port) t'.port = some ref0
    rw [lookupA_eraseA_ne s.proxy.allocatedPorts t.port t'.port (Ne.symm (hportne t' ht'))]
    exact href0
  · intro t' ht' id' ref' r' ha hb
    exact hinv.pend_not_red t' (hsub t' ht') id' ref' r' ha hb
  · show (List.map ScheduledRelease.port (l1 ++ l2)).Nodup
    rw [List.map_append]
    exact hnd

/-- `CreateOrUpdateRedirect` preserves the invariant for any inputs and any
backend outcomes, as long as the permutations come from the random source's
actual draw set. -/
theorem invS_createOrUpdate (s : SysState) (l4 : L4Filter) (id : String)
    (sourceID now : Nat) (perms : Nat → List Nat) (kF eF : Nat → Except Nat Nat)
    (updRes : Except Nat Unit)
    (hperms : ∀ n, (perms n).Perm (List.range (allocSize s.proxy)))
    (hinv : InvS s) :
    InvS ⟨(s.proxy.CreateOrUpdateRedirect l4 id sourceID now perms kF eF updRes).proxy,
          s.pending⟩ := by
  cases hid : lookupA s.proxy.redirects id with
  | some ref =>
    cases hr : lookupA s.proxy.heap ref with
    | none =>
      rw [createOrUpdate_dangling s.proxy l4 id sourceID now perms kF eF updRes ref hid hr]
      exact hinv
    | some r =>
      by_cases hpt : r.parserType = l4.L7Parser
      · cases updRes with
        | ok u =>
          cases u
          rw [createOrUpdate_update_ok s.proxy l4 id sourceID now perms kF eF ref r hid hr hpt]
          exact invS_heap_write s.proxy s.pending ref r
            { r.updateRules l4 with lastUpdated := now } hr rfl hinv
        | error e =>
          rw [createOrUpdate_update_err s.proxy l4 id sourceID now perms kF eF e ref r hid hr hpt]
          exact invS_heap_write s.proxy s.pending ref r (r.updateRules l4) hr rfl hinv
      · rw [createOrUpdate_update_mismatch s.proxy l4 id sourceID now perms kF eF updRes ref r
          hid hr hpt]
        exact hinv
  | none =>
    rw [createOrUpdate_create_path s.proxy l4 id sourceID now perms kF eF updRes hid]
    rcases createLoop_cases s.proxy l4 id perms kF eF redirectCreationAttempts 0
        (redirForCreate l4 sourceID id now) with ⟨hpx, _, _⟩ | ⟨m, q, r2, hal, hpp, hpx, _⟩
    · rw [hpx]
      exact hinv
    · rw [hpx]
      have hfree := allocatePort_ok_free s.proxy (perms m) q hal
      have hmem : ∀ x ∈ perms m, x < allocSize s.proxy := by
        intro x hx
        exact List.mem_range.mp ((hperms m).mem_iff.mp hx)
      obtain ⟨hq1, hq2⟩ := allocatePort_ok_range s.proxy (perms m) q hinv.range_le
        hinv.range_lt hmem hal
      exact invS_register s.proxy s.pending q id r2 hfree hid hq1 hq2 hpp hinv

/-- Every system transition preserves the invariant. -/
theorem invS_step (s s' : SysState) (hstep : Step s s') (hinv : InvS s) : InvS s' := by
  cases hstep with
  | createOrUpdate l4 id sourceID now perms kF eF updRes hperms =>
    exact invS_createOrUpdate s l4 id sourceID now perms kF eF updRes hperms hinv
  | removeOk id now p' t h => exact invS_removeOk s id now p' t h hinv
  | removeErr id now e h => exact hinv
  | fire t l1 l2 time hp ht => exact invS_fire s t l1 l2 hp hinv

theorem invS_reachable (init s : SysState) (hinit : InvS init) (h : Reachable init s) :
    InvS s := by
  induction h with
  | refl => exact hinit
  | tail hsteps hstep ih => exact invS_step _ _ hstep ih

/-! ## Witness fixtures

A concrete manager state: one active HTTP redirect `"ep1-egress"` holding
proxy port 10000, range `[10000, 10002]`. -/

def wRedirect : Redirect :=
  { port := 80
    sourceID := 42
    id := "ep1-egress"
    created := 1000
    lastUpdated := 1000
    endpointID := 42
    ingress := false
    parserType := "http"
    ProxyPort := 10000
    rules := 11
    implementation := 100 }

def wProxy : Proxy :=
  { rangeMin := 10000
    rangeMax := 10002
    allocatedPorts := [(10000, 0)]
    redirects := [("ep1-egress", 0)]
    heap := [(0, wRedirect)]
    nextRef := 1 }

/-- Like `wProxy` but with the single-port range `[10000, 10000]`, so the one
allocated port exhausts the range. -/
def wProxyTight : Proxy :=
  { wProxy with rangeMax := 10000 }

def wFilter : L4Filter :=
  { Port := 80, Ingress := false, L7Parser := "http", rules := 11 }

/-! ## Claims -/

/-- Claim C1, counterexample: with a Kafka create whose backend factory fails
deterministically (error token 7) and allocation always succeeding, the call
performs 6 backend-construction attempts, not `redirectCreationAttempts = 5`:
the loop guard `nRetry >= redirectCreationAttempts` only stops after the
initial attempt plus 5 retries. -/
theorem C1_counterexample :
    ((StartProxySupport 10000 10002).CreateOrUpdateRedirect
        { Port := 80, Ingress := false, L7Parser := "kafka", rules := 11 }
        "ep1-egress" 42 1000 (fun _ => [0, 1, 2]) (fun _ => .error 7) (fun _ => .error 7)
        (.ok ())).backendAttempts = 6 ∧ (6 : Nat) ≠ redirectCreationAttempts := by
  constructor
  · decide
  · decide

/-- Claim C1, amended: on the create path, if backend construction fails on
every attempt (and a candidate port is always available), the call performs
exactly `redirectCreationAttempts + 1 = 6` backend-construction attempts, then
returns the last underlying error (the factory error of attempt index 5), and
the state is completely unchanged: the identifier is not in the redirects map
and no port allocated during the call is in the allocatedPorts map. -/
theorem C1_amended (p : Proxy) (l4 : L4Filter) (id : String) (sourceID now : Nat)
    (perms : Nat → List Nat) (kF eF : Nat → Except Nat Nat) (updRes : Except Nat Unit)
    (errs : Nat → Nat)
    (hid : lookupA p.redirects id = none)
    (hparser : l4.L7Parser = ParserTypeKafka ∨ l4.L7Parser = ParserTypeHTTP)
    (hkf : ∀ n, kF n = .error (errs n))
    (hef : ∀ n, eF n = .error (errs n))
    (hal : ∀ n, ∃ q, p.allocatePort (perms n) = .ok q) :
    p.CreateOrUpdateRedirect l4 id sourceID now perms kF eF updRes =
      ⟨p, .error (.backendError (errs redirectCreationAttempts)),
        redirectCreationAttempts + 1⟩ ∧
    (∀ n q, p.allocatePort (perms n) = .ok q → lookupA p.allocatedPorts q = none) := by
  constructor
  · rw [createOrUpdate_create_path p l4 id sourceID now perms kF eF updRes hid]
    have h := createLoop_persistent_failure p l4 id perms kF eF errs hparser hkf hef hal
      redirectCreationAttempts 0 (redirForCreate l4 sourceID id now)
    simpa using h
  · intro n q h
    exact allocatePort_ok_free p (perms n) q h

/-- Witness for `C1_amended` at a concrete failing create. -/
theorem C1_amended_witness :
    (StartProxySupport 10000 10002).CreateOrUpdateRedirect
        { Port := 80, Ingress := false, L7Parser := "kafka", rules := 11 }
        "ep1-egress" 42 1000 (fun _ => [0, 1, 2]) (fun _ => .error 7) (fun _ => .error 7)
        (.ok ()) =
      ⟨StartProxySupport 10000 10002, .error (.backendError 7),
        redirectCreationAttempts + 1⟩ :=
  (C1_amended (StartProxySupport 10000 10002)
    { Port := 80, Ingress := false, L7Parser := "kafka", rules := 11 }
    "ep1-egress" 42 1000 (fun _ => [0, 1, 2]) (fun _ => .error 7) (fun _ => .error 7)
    (.ok ()) (fun _ => 7) (by decide) (Or.inl rfl) (fun _ => rfl) (fun _ => rfl)
    (fun _ => ⟨10000, rfl⟩)).1

/-- Claim C2, counterexample: for the full `uint16` range `[0, 65535]` (which
satisfies `rangeMin ≤ rangeMax`) and an empty allocated set, `allocatePort`
returns the error although no port in the range is reserved: the permutation
size `rangeMax - rangeMin + 1` is computed in 16 bits and wraps to 0, so the
only permutation the randomizer can produce is empty. -/
theorem C2_counterexample :
    (StartProxySupport 0 65535).allocatePort [] = .error .portsExhausted ∧
    List.Perm [] (List.range (allocSize (StartProxySupport 0 65535))) ∧
    lookupA (StartProxySupport 0 65535).allocatedPorts 0 = none := by
  refine ⟨rfl, ?_, rfl⟩
  have h : allocSize (StartProxySupport 0 65535) = 0 := by decide
  rw [h]
  exact List.Perm.refl []

/-- Claim C2, amended: for every allocatedPorts set and every range with
`rangeMin ≤ rangeMax` whose size does not wrap in 16-bit arithmetic
(`rangeMax - rangeMin + 1 < 65536`, i.e. any range except the full port
space), and any permutation the random source can produce, `allocatePort`
either returns a port in `[rangeMin, rangeMax]` that is not a key of
`allocatedPorts`, or returns an error, and it errors exactly when every port
of the range is a key of `allocatedPorts`. -/
theorem C2_amended (p : Proxy) (perm : List Nat)
    (hle : p.rangeMin ≤ p.rangeMax) (hlt : p.rangeMax < 65536)
    (hsize : p.rangeMax - p.rangeMin + 1 < 65536)
    (hperm : perm.Perm (List.range (allocSize p))) :
    (∀ q, p.allocatePort perm = .ok q →
      p.rangeMin ≤ q ∧ q ≤ p.rangeMax ∧ lookupA p.allocatedPorts q = none) ∧
    ((∃ e, p.allocatePort perm = .error e) ↔
      ∀ q, p.rangeMin ≤ q → q ≤ p.rangeMax → (lookupA p.allocatedPorts q).isSome) := by
  have hmem : ∀ r ∈ perm, r < allocSize p := fun r hr =>
    List.mem_range.mp (hperm.mem_iff.mp hr)
  constructor
  · intro q h
    obtain ⟨h1, h2⟩ := allocatePort_ok_range p perm q hle hlt hmem h
    exact ⟨h1, h2, allocatePort_ok_free p perm q h⟩
  · constructor
    · rintro ⟨e, he⟩
      exact all_allocated_of_allocatePort_err p perm e hle hlt hsize hperm he
    · intro hall
      exact ⟨.portsExhausted, allocatePort_err_of_all_allocated p perm hle hlt hmem hall⟩

/-- Witness for `C2_amended`: in state `wProxy` (port 10000 taken), the port
the permutation `[0, 1, 2]` yields is free. -/
theorem C2_amended_witness :
    10000 ≤ 10001 ∧ lookupA wProxy.allocatedPorts 10001 = none := by
  have h := C2_amended wProxy [0, 1, 2] (by decide) (by decide) (by decide) (by decide)
  have hok : wProxy.allocatePort [0, 1, 2] = .ok 10001 := rfl
  exact ⟨by decide, (h.1 10001 hok).2.2⟩

/-- Claim C3: for every redirect identifier present in the manager,
`RemoveRedirect` removes the identifier from the redirects map before
returning while the redirect's proxy port remains a key of `allocatedPorts`;
the scheduled deferred task fires no earlier than the fixed 5-minute grace
interval (`portReleaseDelay` nanoseconds) after the call, and its action
trace invokes the connection-table cleanup for that specific port strictly
before deleting the port from `allocatedPorts` (which `fireRelease`
performs). -/
theorem C3_remove_deferred_release (p : Proxy) (id : String) (now : Nat) (ref : Ref)
    (r : Redirect)
    (hid : lookupA p.redirects id = some ref)
    (hr : lookupA p.heap ref = some r)
    (hport : lookupA p.allocatedPorts r.ProxyPort = some ref) :
    ∃ p' t, p.RemoveRedirect id now = .ok (p', t) ∧
      lookupA p'.redirects id = none ∧
      lookupA p'.allocatedPorts r.ProxyPort = some ref ∧
      t.port = r.ProxyPort ∧
      t.fireAt = now + portReleaseDelay ∧
      portReleaseDelay = 5 * 60 * 1000000000 ∧
      (∀ time, canFire t time → now + portReleaseDelay ≤ time) ∧
      releaseTaskActions t = [.cleanupOnRedirectClose r.ProxyPort, .releasePort r.ProxyPort] ∧
      lookupA (fireRelease p' t).allocatedPorts r.ProxyPort = none := by
  refine ⟨_, _, removeRedirect_present p id now ref r hid hr, ?_, hport, rfl, rfl, rfl,
    ?_, rfl, ?_⟩
  · exact lookupA_eraseA_self p.redirects id
  · intro time h
    exact h
  · exact lookupA_eraseA_self p.allocatedPorts r.ProxyPort

/-- Witness for `C3_remove_deferred_release` at the concrete state `wProxy`. -/
theorem C3_remove_deferred_release_witness :
    ∃ p' t, wProxy.RemoveRedirect "ep1-egress" 5000 = .ok (p', t) ∧
      lookupA p'.redirects "ep1-egress" = none ∧
      lookupA p'.allocatedPorts wRedirect.ProxyPort = some 0 ∧
      t.port = wRedirect.ProxyPort ∧
      t.fireAt = 5000 + portReleaseDelay ∧
      portReleaseDelay = 5 * 60 * 1000000000 ∧
      (∀ time, canFire t time → 5000 + portReleaseDelay ≤ time) ∧
      releaseTaskActions t =
        [.cleanupOnRedirectClose wRedirect.ProxyPort, .releasePort wRedirect.ProxyPort] ∧
      lookupA (fireRelease p' t).allocatedPorts wRedirect.ProxyPort = none :=
  C3_remove_deferred_release wProxy "ep1-egress" 5000 0 wRedirect rfl rfl rfl

/-- Claim C4: for an identifier already present whose existing redirect's
parser type differs from the filter's, `CreateOrUpdateRedirect` returns the
parser-mismatch error and the returned state is exactly the input state:
the redirect's rule set, proxy port, parser type, timestamps and both index
maps are untouched, and no backend attempt happens. -/
theorem C4_parser_mismatch_frame (p : Proxy) (l4 : L4Filter) (id : String)
    (sourceID now : Nat) (perms : Nat → List Nat) (kF eF : Nat → Except Nat Nat)
    (updRes : Except Nat Unit) (ref : Ref) (r : Redirect)
    (hid : lookupA p.redirects id = some ref)
    (hr : lookupA p.heap ref = some r)
    (hne : r.parserType ≠ l4.L7Parser) :
    p.CreateOrUpdateRedirect l4 id sourceID now perms kF eF updRes =
      ⟨p, .error (.parserMismatch l4.L7Parser r.parserType), 0⟩ :=
  createOrUpdate_update_mismatch p l4 id sourceID now perms kF eF updRes ref r hid hr hne

/-- Witness for `C4_parser_mismatch_frame`: updating the HTTP redirect of
`wProxy` with a Kafka filter. -/
theorem C4_parser_mismatch_frame_witness :
    wProxy.CreateOrUpdateRedirect { wFilter with L7Parser := "kafka" } "ep1-egress" 42 2000
        (fun _ => [0, 1, 2]) (fun _ => .ok 100) (fun _ => .ok 100) (.ok ()) =
      ⟨wProxy, .error (.parserMismatch "kafka" "http"), 0⟩ :=
  C4_parser_mismatch_frame wProxy { wFilter with L7Parser := "kafka" } "ep1-egress" 42 2000
    (fun _ => [0, 1, 2]) (fun _ => .ok 100) (fun _ => .ok 100) (.ok ()) 0 wRedirect
    rfl rfl (by decide)

/-- Claim C6: for an identifier already present with a matching parser type,
a successful `CreateOrUpdateRedirect` returns the existing redirect record
(the same reference), performs no backend-construction attempt, leaves both
index maps unchanged, and updates the stored record to carry the new rule set
and a refreshed `lastUpdated`, with `ProxyPort` and `created` (and the parser
type) unchanged. -/
theorem C6_update_success_frame (p : Proxy) (l4 : L4Filter) (id : String)
    (sourceID now : Nat) (perms : Nat → List Nat) (kF eF : Nat → Except Nat Nat)
    (ref : Ref) (r : Redirect)
    (hid : lookupA p.redirects id = some ref)
    (hr : lookupA p.heap ref = some r)
    (heq : r.parserType = l4.L7Parser) :
    (p.CreateOrUpdateRedirect l4 id sourceID now perms kF eF (.ok ())).res = .ok ref ∧
    (p.CreateOrUpdateRedirect l4 id sourceID now perms kF eF (.ok ())).backendAttempts = 0 ∧
    (p.CreateOrUpdateRedirect l4 id sourceID now perms kF eF (.ok ())).proxy.redirects
      = p.redirects ∧
    (p.CreateOrUpdateRedirect l4 id sourceID now perms kF eF (.ok ())).proxy.allocatedPorts
      = p.allocatedPorts ∧
    ∃ r', lookupA (p.CreateOrUpdateRedirect l4 id sourceID now perms kF eF
        (.ok ())).proxy.heap ref = some r' ∧
      r'.rules = l4.rules ∧ r'.lastUpdated = now ∧
      r'.ProxyPort = r.ProxyPort ∧ r'.created = r.created ∧ r'.parserType = r.parserType := by
  rw [createOrUpdate_update_ok p l4 id sourceID now perms kF eF ref r hid hr heq]
  exact ⟨rfl, rfl, rfl, rfl, { r.updateRules l4 with lastUpdated := now },
    lookupA_insertA_self p.heap ref _, rfl, rfl, rfl, rfl, rfl⟩

/-- Witness for `C6_update_success_frame`: updating `wProxy`'s redirect with
a new rule set. -/
theorem C6_update_success_frame_witness :
    (wProxy.CreateOrUpdateRedirect { wFilter with rules := 99 } "ep1-egress" 42 2000
        (fun _ => [0, 1, 2]) (fun _ => .ok 100) (fun _ => .ok 100) (.ok ())).res = .ok 0 :=
  (C6_update_success_frame wProxy { wFilter with rules := 99 } "ep1-egress" 42 2000
    (fun _ => [0, 1, 2]) (fun _ => .ok 100) (fun _ => .ok 100) 0 wRedirect rfl rfl rfl).1

/-- Claim C7: on the create path, when every port of the configured range is a
key of `allocatedPorts`, `CreateOrUpdateRedirect` surfaces the allocation
error immediately: zero backend-construction attempts (no retry is consumed)
and the returned state is exactly the input state. -/
theorem C7_ports_exhausted_immediate (p : Proxy) (l4 : L4Filter) (id : String)
    (sourceID now : Nat) (perms : Nat → List Nat) (kF eF : Nat → Except Nat Nat)
    (updRes : Except Nat Unit)
    (hid : lookupA p.redirects id = none)
    (hle : p.rangeMin ≤ p.rangeMax) (hlt : p.rangeMax < 65536)
    (hperm : (perms 0).Perm (List.range (allocSize p)))
    (hall : ∀ q, p.rangeMin ≤ q → q ≤ p.rangeMax → (lookupA p.allocatedPorts q).isSome) :
    p.CreateOrUpdateRedirect l4 id sourceID now perms kF eF updRes =
      ⟨p, .error .portsExhausted, 0⟩ := by
  rw [createOrUpdate_create_path p l4 id sourceID now perms kF eF updRes hid]
  have hmem : ∀ x ∈ perms 0, x < allocSize p := fun x hx =>
    List.mem_range.mp (hperm.mem_iff.mp hx)
  exact createLoop_alloc_err p (redirForCreate l4 sourceID id now) l4 id perms kF eF
    redirectCreationAttempts 0 .portsExhausted
    (allocatePort_err_of_all_allocated p (perms 0) hle hlt hmem hall)

/-- Witness for `C7_ports_exhausted_immediate`: single-port range
`[10000, 10000]` whose port is held by an active redirect; a create for a
different identifier fails with the exhaustion error. -/
theorem C7_ports_exhausted_immediate_witness :
    wProxyTight.CreateOrUpdateRedirect wFilter "ep2-egress" 43 2000 (fun _ => [0])
        (fun _ => .ok 100) (fun _ => .ok 100) (.ok ()) =
      ⟨wProxyTight, .error .portsExhausted, 0⟩ :=
  C7_ports_exhausted_immediate wProxyTight wFilter "ep2-egress" 43 2000 (fun _ => [0])
    (fun _ => .ok 100) (fun _ => .ok 100) (.ok ()) (by decide) (by decide) (by decide)
    (by decide)
    (by
      intro q h1 h2
      have e1 : wProxyTight.rangeMin = 10000 := rfl
      have e2 : wProxyTight.rangeMax = 10000 := rfl
      rw [e1] at h1
      rw [e2] at h2
      have hq : q = 10000 := by omega
      subst hq
      decide)

/-- Claim C8: a create (identifier absent) with a parser type that is neither
HTTP nor Kafka fails on the first loop iteration: the returned state is the
input state, zero backend-construction attempts are made, and an error is
returned. -/
theorem C8_unsupported_parser_immediate (p : Proxy) (l4 : L4Filter) (id : String)
    (sourceID now : Nat) (perms : Nat → List Nat) (kF eF : Nat → Except Nat Nat)
    (updRes : Except Nat Unit)
    (hid : lookupA p.redirects id = none)
    (hk : l4.L7Parser ≠ ParserTypeKafka) (hh : l4.L7Parser ≠ ParserTypeHTTP) :
    (p.CreateOrUpdateRedirect l4 id sourceID now perms kF eF updRes).proxy = p ∧
    (p.CreateOrUpdateRedirect l4 id sourceID now perms kF eF updRes).backendAttempts = 0 ∧
    ∃ e, (p.CreateOrUpdateRedirect l4 id sourceID now perms kF eF updRes).res = .error e := by
  rw [createOrUpdate_create_path p l4 id sourceID now perms kF eF updRes hid]
  cases hal : p.allocatePort (perms 0) with
  | error e =>
    rw [createLoop_alloc_err p (redirForCreate l4 sourceID id now) l4 id perms kF eF
      redirectCreationAttempts 0 e hal]
    exact ⟨rfl, rfl, e, rfl⟩
  | ok q =>
    rw [createLoop_unsupported p (redirForCreate l4 sourceID id now) l4 id perms kF eF
      redirectCreationAttempts 0 q hal hk hh]
    exact ⟨rfl, rfl, .unsupportedParser l4.L7Parser, rfl⟩

/-- Witness for `C8_unsupported_parser_immediate`: a `"dns"` parser create
against the empty manager. -/
theorem C8_unsupported_parser_immediate_witness :
    ((StartProxySupport 10000 10002).CreateOrUpdateRedirect
        { wFilter with L7Parser := "dns" } "ep2-egress" 43 2000 (fun _ => [0, 1, 2])
        (fun _ => .ok 100) (fun _ => .ok 100) (.ok ())).proxy = StartProxySupport 10000 10002 :=
  (C8_unsupported_parser_immediate (StartProxySupport 10000 10002)
    { wFilter with L7Parser := "dns" } "ep2-egress" 43 2000 (fun _ => [0, 1, 2])
    (fun _ => .ok 100) (fun _ => .ok 100) (.ok ()) rfl (by decide) (by decide)).1

/-- Claim C10: on the update path with a matching parser, when the backend's
`UpdateRules` fails, the stored record's rule set has already been replaced
with the new rules before the error is surfaced, while `lastUpdated` is not
refreshed and `ProxyPort`/`created` are untouched; the redirect stays indexed
under its identifier and its port stays reserved; both index maps are
unchanged and no backend-construction attempt is made. -/
theorem C10_update_failure_frame (p : Proxy) (l4 : L4Filter) (id : String)
    (sourceID now : Nat) (perms : Nat → List Nat) (kF eF : Nat → Except Nat Nat)
    (e : Nat) (ref : Ref) (r : Redirect)
    (hid : lookupA p.redirects id = some ref)
    (hr : lookupA p.heap ref = some r)
    (hport : lookupA p.allocatedPorts r.ProxyPort = some ref)
    (heq : r.parserType = l4.L7Parser) :
    (p.CreateOrUpdateRedirect l4 id sourceID now perms kF eF (.error e)).res
      = .error (.backendError e) ∧
    (p.CreateOrUpdateRedirect l4 id sourceID now perms kF eF (.error e)).backendAttempts
      = 0 ∧
    (p.CreateOrUpdateRedirect l4 id sourceID now perms kF eF (.error e)).proxy.redirects
      = p.redirects ∧
    (p.CreateOrUpdateRedirect l4 id sourceID now perms kF eF (.error e)).proxy.allocatedPorts
      = p.allocatedPorts ∧
    lookupA (p.CreateOrUpdateRedirect l4 id sourceID now perms kF eF
      (.error e)).proxy.redirects id = some ref ∧
    lookupA (p.CreateOrUpdateRedirect l4 id sourceID now perms kF eF
      (.error e)).proxy.allocatedPorts r.ProxyPort = some ref ∧
    ∃ r', lookupA (p.CreateOrUpdateRedirect l4 id sourceID now perms kF eF
        (.error e)).proxy.heap ref = some r' ∧
      r'.rules = l4.rules ∧ r'.lastUpdated = r.lastUpdated ∧
      r'.ProxyPort = r.ProxyPort ∧ r'.created = r.created := by
  rw [createOrUpdate_update_err p l4 id sourceID now perms kF eF e ref r hid hr heq]
  exact ⟨rfl, rfl, rfl, rfl, hid, hport, r.updateRules l4,
    lookupA_insertA_self p.heap ref _, rfl, rfl, rfl, rfl⟩

/-- Witness for `C10_update_failure_frame`: a failing rules update (error
token 9) against `wProxy`. -/
theorem C10_update_failure_frame_witness :
    (wProxy.CreateOrUpdateRedirect { wFilter with rules := 99 } "ep1-egress" 42 2000
        (fun _ => [0, 1, 2]) (fun _ => .ok 100) (fun _ => .ok 100) (.error 9)).res
      = .error (.backendError 9) :=
  (C10_update_failure_frame wProxy { wFilter with rules := 99 } "ep1-egress" 42 2000
    (fun _ => [0, 1, 2]) (fun _ => .ok 100) (fun _ => .ok 100) 9 0 wRedirect
    rfl rfl rfl rfl).1

/-- Claim C5: every manager operation preserves the spec's invariant — in any
state reachable from a fresh `StartProxySupport` manager through any sequence
of `CreateOrUpdateRedirect` calls, `RemoveRedirect` calls, and firings of the
deferred port-release tasks, every key of `allocatedPorts` lies in
`[rangeMin, rangeMax]`, the redirect stored under each `allocatedPorts` key
has `ProxyPort` equal to that key, and every redirect in the redirects map
has its `ProxyPort` present as a key of `allocatedPorts`. -/
theorem C5_manager_invariant (minPort maxPort : Nat) (s : SysState)
    (hle : minPort ≤ maxPort) (hlt : maxPort < 65536)
    (hreach : Reachable ⟨StartProxySupport minPort maxPort, []⟩ s) :
    ClaimInv s.proxy :=
  claimInv_of_invS s
    (invS_reachable ⟨StartProxySupport minPort maxPort, []⟩ s
      (invS_init minPort maxPort hle hlt) hreach)

/-- Witness for `C5_manager_invariant`: the state after one successful create
step from the fresh manager on range `[10000, 10002]`. -/
theorem C5_manager_invariant_witness :
    ClaimInv ((StartProxySupport 10000 10002).CreateOrUpdateRedirect wFilter "ep1-egress"
      42 1000 (fun _ => [0, 1, 2]) (fun _ => .ok 100) (fun _ => .ok 100) (.ok ())).proxy :=
  C5_manager_invariant 10000 10002
    ⟨((StartProxySupport 10000 10002).CreateOrUpdateRedirect wFilter "ep1-egress" 42 1000
      (fun _ => [0, 1, 2]) (fun _ => .ok 100) (fun _ => .ok 100) (.ok ())).proxy, []⟩
    (by decide) (by decide)
    (Relation.ReflTransGen.single
      (Step.createOrUpdate ⟨StartProxySupport 10000 10002, []⟩ wFilter "ep1-egress" 42 1000
        (fun _ => [0, 1, 2]) (fun _ => .ok 100) (fun _ => .ok 100) (.ok ())
        (fun _ =>
          (by decide :
            List.Perm [0, 1, 2] (List.range (allocSize (StartProxySupport 10000 10002)))))))
